import Mathlib

/-!
# Verification of the Cortex Browser geolocation permission logic

Shallow embedding of `cortex_browser/geolocation.py` and the permission
handling part of `cortex_browser/app.py`.

External library behaviour used by the code is modelled explicitly:

* `QUrlM`/`parseUrl` model the Qt `QUrl` class (tolerant parsing mode): scheme and
  host are stored lowercased as `QUrl` normalises them, query and fragment
  are cut off, userinfo and port are stripped from the host, IPv6 hosts are
  stored without brackets.  `QUrl` validity is modelled as non-emptiness of
  the input (tolerant mode accepts all inputs used here); percent-encoding
  and IDN processing are out of scope.
* `pyIpAddress`/`ipIsLoopback` model the CPython `ipaddress.ip_address`
  together with `is_loopback`.  `is_loopback` follows the modern CPython
  semantics in which an IPv4-mapped IPv6 loopback (`::ffff:127.0.0.0/104`)
  counts as loopback; this is the behaviour the test suite of the repository
  asserts (`http://[::ffff:127.0.0.1]/` must be secure).
-/

/-- Lowercase a string character-wise (models Python `str.lower` and the Qt
scheme/host normalisation for the ASCII inputs involved). -/
def strLower (s : String) : String := String.mk (s.data.map Char.toLower)

/-- Models Python `str.endswith`. -/
def strEndsWith (s t : String) : Bool :=
  decide (t.data.length ≤ s.data.length) &&
    (s.data.drop (s.data.length - t.data.length) == t.data)

/-- Split a character list at every occurrence of `c`
(models Python `str.split(c)`): `splitOnChar ':' "a:b"` is `["a", "b"]`. -/
def splitOnChar (c : Char) : List Char → List (List Char)
  | [] => [[]]
  | x :: xs =>
    let r := splitOnChar c xs
    if x = c then [] :: r
    else
      match r with
      | [] => [[x]]
      | h :: t => (x :: h) :: t

/-! ## Model of Qt `QUrl` -/

/-- Model of a `QUrl` value: the components the repository reads.
`hasHost` records whether an authority component (`//…`) is present. -/
structure QUrlM where
  valid : Bool
  scheme : String
  hasHost : Bool
  host : String
  path : String
deriving DecidableEq

/-- RFC 3986 scheme characters (after the leading letter). -/
def schemeChar (c : Char) : Bool :=
  c.isAlpha || c.isDigit || c == '+' || c == '-' || c == '.'

/-- Split off a syntactically valid scheme (letter followed by scheme
characters, terminated by `:`); `none` when the input has no scheme. -/
def urlSchemeSplit (cs : List Char) : Option (List Char × List Char) :=
  let pre := cs.takeWhile (fun c => c != ':')
  if pre.length = cs.length then none
  else
    match pre with
    | [] => none
    | c :: _ =>
      if c.isAlpha && pre.all schemeChar then some (pre, cs.drop (pre.length + 1))
      else none

/-- Does the remainder after the scheme start with `//` (an authority)? -/
def startsWithSlashSlash : List Char → Bool
  | '/' :: '/' :: _ => true
  | _ => false

/-- Extract the host from an authority component: strip `userinfo@`,
strip the port, unwrap IPv6 brackets, lowercase (as `QUrl.host` does). -/
def hostOfAuthority (auth : List Char) : List Char :=
  let afterUser := (auth.reverse.takeWhile (fun c => c != '@')).reverse
  match afterUser with
  | '[' :: t => (t.takeWhile (fun c => c != ']')).map Char.toLower
  | _ => (afterUser.takeWhile (fun c => c != ':')).map Char.toLower

/-- Parse the part of a URL after the scheme: returns
(authority present, host, path); query and fragment are cut off. -/
def parseAfterScheme (rest : List Char) : Bool × String × String :=
  if startsWithSlashSlash rest then
    let tail := rest.drop 2
    let auth := tail.takeWhile (fun c => !(c == '/' || c == '?' || c == '#'))
    let after := tail.drop auth.length
    (true, String.mk (hostOfAuthority auth),
      String.mk (after.takeWhile (fun c => !(c == '?' || c == '#'))))
  else
    (false, "", String.mk (rest.takeWhile (fun c => !(c == '?' || c == '#'))))

/-- Model of the `QUrl` constructor applied to a string. -/
def parseUrl (s : String) : QUrlM :=
  match urlSchemeSplit s.data with
  | some (sch, rest) =>
    let r := parseAfterScheme rest
    { valid := true, scheme := String.mk (sch.map Char.toLower),
      hasHost := r.1, host := r.2.1, path := r.2.2 }
  | none =>
    if s.data.isEmpty then
      { valid := false, scheme := "", hasHost := false, host := "", path := "" }
    else
      let r := parseAfterScheme s.data
      { valid := true, scheme := "", hasHost := r.1, host := r.2.1, path := r.2.2 }

/-- Model of `QUrl.toString()` for the component model: used by the
orchestrator to build decision-store keys. -/
def urlToString (u : QUrlM) : String :=
  (if u.scheme = "" then "" else u.scheme ++ ":") ++
    (if u.hasHost then
      "//" ++ (if u.host.data.any (fun c => c == ':') then "[" ++ u.host ++ "]" else u.host)
     else "") ++ u.path

/-- Model of `QUrl.isLocalFile()`: the scheme is `file`
(`QUrl` schemes are always stored lowercased). -/
def urlIsLocalFile (u : QUrlM) : Bool := u.scheme == "file"

/-! ## Model of Python `ipaddress` -/

/-- An address returned by `ipaddress.ip_address`: either an
`IPv4Address` or an `IPv6Address`, value held as an integer. -/
inductive IpAddr where
  | v4 (ip : Nat)
  | v6 (ip : Nat)
deriving DecidableEq

/-- Hexadecimal digit test (Python `_HEX_DIGITS`). -/
def isHexDigitChar (c : Char) : Bool :=
  c.isDigit || (decide ('a' ≤ c) && decide (c ≤ 'f')) ||
    (decide ('A' ≤ c) && decide (c ≤ 'F'))

/-- Numeric value of a hexadecimal digit. -/
def hexDigitVal (c : Char) : Nat :=
  if c.isDigit then c.toNat - 48
  else if decide ('a' ≤ c) && decide (c ≤ 'f') then c.toNat - 87
  else if decide ('A' ≤ c) && decide (c ≤ 'F') then c.toNat - 55
  else 0

/-- Models `IPv4Address._parse_octet`: decimal, non-empty, at most three
digits, no leading zero, value at most 255. -/
def parseOctet (cs : List Char) : Option Nat :=
  if cs ≠ [] ∧ cs.all Char.isDigit ∧ cs.length ≤ 3 ∧
      (cs.length = 1 ∨ cs.headD '0' ≠ '0') then
    let v := cs.foldl (fun a c => a * 10 + (c.toNat - 48)) 0
    if v ≤ 255 then some v else none
  else none

/-- Models `IPv4Address._ip_int_from_string`: exactly four octets. -/
def parseIPv4Chars (cs : List Char) : Option Nat :=
  let octs := splitOnChar '.' cs
  if octs.length = 4 then
    (octs.mapM parseOctet).map (List.foldl (fun a o => a * 256 + o) 0)
  else none

/-- Models `IPv6Address._parse_hextet`: hexadecimal, non-empty,
at most four digits. -/
def parseHextet (cs : List Char) : Option Nat :=
  if cs ≠ [] ∧ cs.all isHexDigitChar ∧ cs.length ≤ 4 then
    some (cs.foldl (fun a c => a * 16 + hexDigitVal c) 0)
  else none

/-- Combine 16-bit groups into the 128-bit address integer. -/
def v6fold (gs : List Nat) : Nat := gs.foldl (fun a g => a * 65536 + g) 0

/-- Models the embedded-IPv4 step of `IPv6Address._ip_int_from_string`:
when the last part contains a dot it must parse as IPv4 and is replaced by
its two 16-bit groups (rendered back to hex digits, as CPython does). -/
def expandV4Tail (parts : List (List Char)) : Option (List (List Char)) :=
  if (parts.getLastD []).any (fun c => c == '.') then
    match parseIPv4Chars (parts.getLastD []) with
    | some ip4 =>
      some (parts.dropLast ++ [Nat.toDigits 16 (ip4 / 65536), Nat.toDigits 16 (ip4 % 65536)])
    | none => none
  else some parts

/-- Models `IPv6Address._ip_int_from_string`: split on `:`, at least three
parts, optional embedded IPv4 tail, at most nine parts, at most one `::`
(an empty middle part), leading/trailing empty parts only next to a `::`,
at least one group skipped when `::` is present, exactly eight groups
otherwise. -/
def parseIPv6Addr (cs : List Char) : Option Nat :=
  let parts := splitOnChar ':' cs
  if parts.length < 3 then none
  else
    match expandV4Tail parts with
    | none => none
    | some ps =>
      if 9 < ps.length then none
      else
        let mids := (List.range ps.length).filter
          (fun i => decide (0 < i) && decide (i < ps.length - 1) && (ps.getD i [] == []))
        match mids with
        | [] =>
          if ps.length = 8 ∧ ps.getD 0 [] ≠ [] ∧ ps.getLastD [] ≠ [] then
            (ps.mapM parseHextet).map v6fold
          else none
        | [i] =>
          let hi? : Option (List (List Char)) :=
            if ps.getD 0 [] = [] then (if i = 1 then some [] else none)
            else some (ps.take i)
          let lo? : Option (List (List Char)) :=
            if ps.getLastD [] = [] then (if ps.length - i - 1 = 1 then some [] else none)
            else some (ps.drop (i + 1))
          match hi?, lo? with
          | some hi, some lo =>
            if hi.length + lo.length ≤ 7 then
              match hi.mapM parseHextet, lo.mapM parseHextet with
              | some hv, some lv =>
                some (v6fold (hv ++ List.replicate (8 - (hi.length + lo.length)) 0 ++ lv))
              | _, _ => none
            else none
          | _, _ => none
        | _ => none

/-- Models the `%scope` handling of the `IPv6Address` constructor: the part
before the first `%` is the address, a present scope id must be non-empty. -/
def parseIPv6WithScope (cs : List Char) : Option Nat :=
  let addr := cs.takeWhile (fun c => c != '%')
  if addr.length = cs.length then parseIPv6Addr addr
  else if cs.drop (addr.length + 1) = [] then none
  else parseIPv6Addr addr

/-- Models `ipaddress.ip_address`: try IPv4 first, then IPv6;
`none` models the `ValueError` raised for invalid input. -/
def pyIpAddress (s : String) : Option IpAddr :=
  match parseIPv4Chars s.data with
  | some ip => some (IpAddr.v4 ip)
  | none =>
    match parseIPv6WithScope s.data with
    | some ip => some (IpAddr.v6 ip)
    | none => none

/-- Models `is_loopback`: IPv4 loopback is `127.0.0.0/8`; IPv6 loopback is
`::1`, and an IPv4-mapped address is loopback when its IPv4 part is
(modern CPython semantics, as asserted by the tests of the repository). -/
def ipIsLoopback : IpAddr → Bool
  | .v4 ip => ip / 16777216 == 127
  | .v6 ip =>
    if ip / 4294967296 == 65535 then ip % 4294967296 / 16777216 == 127
    else ip == 1

/-! ## The classifier `geolocation.is_secure_geolocation_origin`

The Python function recurses through `blob`/`filesystem` URLs.  The
embedding uses an explicit recursion-depth budget (`fuel`); the adequacy
lemma `isSecureFuel_stable` below shows the budget `path.length + 1` is
enough for every input, which is the termination argument. -/

/-- Fueled embedding of `is_secure_geolocation_origin`
(`src/cortex_browser/geolocation.py`). -/
def isSecureFuel : Nat → QUrlM → Bool
  | 0, _ => false
  | fuel + 1, u =>
    if urlIsLocalFile u = true ∨ strLower u.scheme = "https" ∨ strLower u.scheme = "wss" then
      true
    else if strLower u.scheme = "blob" ∨ strLower u.scheme = "filesystem" then
      let inner := parseUrl u.path
      if inner.valid = true ∧ inner ≠ u then isSecureFuel fuel inner else false
    else if strLower u.scheme = "http" then
      let host := strLower u.host
      if host = "" then false
      else if host = "localhost" ∨ strEndsWith host ".localhost" = true then true
      else
        match pyIpAddress host with
        | some ip => ipIsLoopback ip
        | none => false
    else false

/-- `geolocation.is_secure_geolocation_origin`: the standalone Origin
Security Classifier of the repository. -/
def is_secure_geolocation_origin (u : QUrlM) : Bool :=
  isSecureFuel (u.path.length + 1) u

/-! ## Termination infrastructure for the nested-scheme recursion

The Python function recurses on `QUrl(url.path())`.  Whenever the parsed
URL carries a scheme, its path is strictly shorter than the input string
(the scheme and its colon are consumed), so the recursion depth is bounded
by the length of the path. -/

lemma length_stringMk (l : List Char) : (String.mk l).length = l.length := rfl

lemma parseAfterScheme_path_le (rest : List Char) :
    (parseAfterScheme rest).2.2.length ≤ rest.length := by
  unfold parseAfterScheme
  split
  · dsimp only
    rw [length_stringMk]
    have h1 := (List.takeWhile_sublist
      (fun c => !(c == '?' || c == '#')) (l := (rest.drop 2).drop
        ((rest.drop 2).takeWhile (fun c => !(c == '/' || c == '?' || c == '#'))).length)).length_le
    have h2 := List.length_drop
      ((rest.drop 2).takeWhile (fun c => !(c == '/' || c == '?' || c == '#'))).length
      (rest.drop 2)
    have h3 := List.length_drop 2 rest
    omega
  · dsimp only
    rw [length_stringMk]
    exact (List.takeWhile_sublist _).length_le

lemma urlSchemeSplit_some_length {cs sch rest : List Char}
    (h : urlSchemeSplit cs = some (sch, rest)) : rest.length < cs.length := by
  simp only [urlSchemeSplit] at h
  split at h
  · exact absurd h (by simp)
  · rename_i hne
    split at h
    · exact absurd h (by simp)
    · split at h
      · have hle := (List.takeWhile_sublist (fun c => c != ':') (l := cs)).length_le
        cases h
        have := List.length_drop ((cs.takeWhile (fun c => c != ':')).length + 1) cs
        omega
      · exact absurd h (by simp)

lemma parseUrl_scheme_ne_path_lt (s : String)
    (h : (parseUrl s).scheme ≠ "") : (parseUrl s).path.length < s.length := by
  rcases hsp : urlSchemeSplit s.data with _ | ⟨sch, rest⟩
  · exfalso
    apply h
    simp only [parseUrl, hsp]
    split <;> rfl
  · have h1 := parseAfterScheme_path_le rest
    have h2 := urlSchemeSplit_some_length hsp
    have hs : s.length = s.data.length := rfl
    simp only [parseUrl, hsp]
    omega

lemma parseUrl_valid_pos {s : String} (h : (parseUrl s).valid = true) :
    0 < s.length := by
  by_contra hc
  have hd : s.data = [] := by
    have hs : s.length = s.data.length := rfl
    exact List.eq_nil_of_length_eq_zero (by omega)
  rw [parseUrl, hd] at h
  simp [urlSchemeSplit, List.takeWhile] at h

lemma isSecureFuel_nonrec {v : QUrlM}
    (hb : ¬(strLower v.scheme = "blob" ∨ strLower v.scheme = "filesystem"))
    (a b : Nat) : isSecureFuel (a + 1) v = isSecureFuel (b + 1) v := by
  simp only [isSecureFuel]
  split_ifs <;> rfl

lemma isSecureFuel_succ_congr {u : QUrlM} {a b : Nat}
    (hrec : (strLower u.scheme = "blob" ∨ strLower u.scheme = "filesystem") →
      (parseUrl u.path).valid = true ∧ parseUrl u.path ≠ u →
      isSecureFuel a (parseUrl u.path) = isSecureFuel b (parseUrl u.path)) :
    isSecureFuel (a + 1) u = isSecureFuel (b + 1) u := by
  simp only [isSecureFuel]
  split_ifs with h1 h2 hg <;> try rfl
  exact hrec h2 hg

lemma isSecureFuel_stable : ∀ (n : Nat) (u : QUrlM), u.path.length < n →
    isSecureFuel n u = is_secure_geolocation_origin u := by
  intro n
  induction n using Nat.strong_induction_on with
  | _ n ih =>
    intro u hu
    obtain ⟨m, rfl⟩ : ∃ m, n = m + 1 := ⟨n - 1, by omega⟩
    rw [is_secure_geolocation_origin]
    apply isSecureFuel_succ_congr
    intro _hblob hg
    have hvpos : 0 < u.path.length := parseUrl_valid_pos hg.1
    by_cases hvs : (parseUrl u.path).scheme = ""
    · obtain ⟨a, ha⟩ : ∃ a, m = a + 1 := ⟨m - 1, by omega⟩
      obtain ⟨b, hb⟩ : ∃ b, u.path.length = b + 1 := ⟨u.path.length - 1, by omega⟩
      rw [ha, hb]
      apply isSecureFuel_nonrec
      rw [hvs]
      decide
    · have hlt : (parseUrl u.path).path.length < u.path.length :=
        parseUrl_scheme_ne_path_lt u.path hvs
      rw [ih m (by omega) _ (by omega), ih u.path.length (by omega) _ hlt]

lemma isSecureFuel_parse_eq (s : String) (b : Nat) (hb : 0 < b) (hsb : s.length ≤ b) :
    isSecureFuel b (parseUrl s) = is_secure_geolocation_origin (parseUrl s) := by
  by_cases hvs : (parseUrl s).scheme = ""
  · obtain ⟨a, rfl⟩ : ∃ a, b = a + 1 := ⟨b - 1, by omega⟩
    rw [is_secure_geolocation_origin]
    apply isSecureFuel_nonrec
    rw [hvs]
    decide
  · exact isSecureFuel_stable b _
      (lt_of_lt_of_le (parseUrl_scheme_ne_path_lt s hvs) hsb)

/-! ## Branch characterisations of the classifier -/

lemma scheme_file_not_lower {u : QUrlM} (h : u.scheme = "file") :
    strLower u.scheme = "file" := by rw [h]; rfl

/-- The first branch of the classifier: local files, `https` and `wss`
are secure. -/
lemma isSecure_first_branch {u : QUrlM}
    (h : urlIsLocalFile u = true ∨ strLower u.scheme = "https" ∨ strLower u.scheme = "wss") :
    is_secure_geolocation_origin u = true := by
  rw [is_secure_geolocation_origin]
  simp only [isSecureFuel]
  rw [if_pos h]

lemma not_first_branch_of_lower {u : QUrlM} (a : String)
    (h : strLower u.scheme = a) (h1 : a ≠ "file") (h2 : a ≠ "https") (h3 : a ≠ "wss") :
    ¬(urlIsLocalFile u = true ∨ strLower u.scheme = "https" ∨ strLower u.scheme = "wss") := by
  intro hcon
  rcases hcon with hf | hs | hs
  · have hfile : u.scheme = "file" := by simpa [urlIsLocalFile] using hf
    rw [scheme_file_not_lower hfile] at h
    exact h1 h.symm
  · rw [hs] at h; exact h2 h.symm
  · rw [hs] at h; exact h3 h.symm

/-- The `http` branch of the classifier, written out. -/
lemma isSecure_http {u : QUrlM} (h : strLower u.scheme = "http") :
    is_secure_geolocation_origin u =
      (if strLower u.host = "" then false
       else if strLower u.host = "localhost" ∨
          strEndsWith (strLower u.host) ".localhost" = true then true
       else
        match pyIpAddress (strLower u.host) with
        | some ip => ipIsLoopback ip
        | none => false) := by
  rw [is_secure_geolocation_origin]
  simp only [isSecureFuel]
  rw [if_neg (not_first_branch_of_lower "http" h (by decide) (by decide) (by decide)),
    if_neg (by rw [h]; decide), if_pos h]

/-- The `blob`/`filesystem` branch of the classifier: parse the path as an
inner URL; when it is valid and distinct, recurse, otherwise insecure. -/
lemma isSecure_nested (u : QUrlM)
    (h : strLower u.scheme = "blob" ∨ strLower u.scheme = "filesystem") :
    is_secure_geolocation_origin u =
      if (parseUrl u.path).valid = true ∧ parseUrl u.path ≠ u then
        is_secure_geolocation_origin (parseUrl u.path)
      else false := by
  rw [is_secure_geolocation_origin]
  simp only [isSecureFuel]
  have h1 : ¬(urlIsLocalFile u = true ∨ strLower u.scheme = "https" ∨
      strLower u.scheme = "wss") := by
    rcases h with h | h <;>
      exact not_first_branch_of_lower _ h (by decide) (by decide) (by decide)
  rw [if_neg h1, if_pos h]
  split_ifs with hg
  · exact isSecureFuel_parse_eq u.path u.path.length (parseUrl_valid_pos hg.1) le_rfl
  · rfl

/-! ## The permission orchestrator (`app.py`, `BrowserWindow`)

`_handle_feature_permission_request` is modelled as a pure transition: it
receives the current decision store (`BrowserWindow._permission_store`),
the requesting origin, the requested feature, and the interaction of the user
with the prompt dialog, and returns the new store together with the policy
passed to `setFeaturePermission`, the number of times the prompt
collaborator ran, and whether the insecure-context status message was
shown. -/

/-- `QWebEnginePage.Feature` (the Qt enumeration). -/
inductive Feature where
  | Notifications
  | Geolocation
  | MediaAudioCapture
  | MediaVideoCapture
  | MediaAudioVideoCapture
  | MouseLock
  | DesktopVideoCapture
  | DesktopAudioVideoCapture
deriving DecidableEq

/-- Models Python `int(feature)` on the Qt enumeration. -/
def featureToInt : Feature → Nat
  | .Notifications => 0
  | .Geolocation => 1
  | .MediaAudioCapture => 2
  | .MediaVideoCapture => 3
  | .MediaAudioVideoCapture => 4
  | .MouseLock => 5
  | .DesktopVideoCapture => 6
  | .DesktopAudioVideoCapture => 7

/-- `QWebEnginePage.PermissionPolicy`. -/
inductive PermissionPolicy where
  | PermissionUnknown
  | PermissionGrantedByUser
  | PermissionDeniedByUser
deriving DecidableEq

/-- How the user ended the prompt dialog: clicked Allow, clicked Deny, or
closed the dialog without choosing either button. -/
inductive PromptClick where
  | clickedAllow
  | clickedDeny
  | dismissed
deriving DecidableEq

/-- The user interaction consumed by `_prompt_geolocation_permission`:
which button ended the dialog and the state of the
"Remember this decision" checkbox. -/
structure PromptInput where
  click : PromptClick
  rememberChecked : Bool
deriving DecidableEq

/-- Models `BrowserWindow._prompt_geolocation_permission`: returns
`(allow, remember)`.  `allow` is whether the Allow button was clicked; a
dialog closed without clicking Allow or Deny is treated as a denial;
`remember` is the checkbox state at dismissal. -/
def promptGeolocationPermission (inp : PromptInput) : Bool × Bool :=
  let allow : Bool := inp.click == PromptClick.clickedAllow
  let remember : Bool := inp.rememberChecked
  let allow : Bool :=
    if inp.click ≠ PromptClick.clickedAllow ∧ inp.click ≠ PromptClick.clickedDeny then
      false
    else allow
  (allow, remember)

/-- Models the static method `BrowserWindow._is_secure_geolocation_origin`:
the inline origin check the orchestrator actually calls. -/
def browser_is_secure_geolocation_origin (u : QUrlM) : Bool :=
  if u.scheme = "https" ∨ u.scheme = "wss" ∨ u.scheme = "file" then true
  else if u.scheme = "http" ∧
      (u.host = "localhost" ∨ u.host = "127.0.0.1" ∨ u.host = "::1") then true
  else false

/-- The decision store `BrowserWindow._permission_store`:
a dict keyed by `(origin string, int(feature))`. -/
abbrev PermStore : Type := List ((String × Nat) × PermissionPolicy)

/-- Models Python `key in store` / `store[key]` on the dict. -/
def storeFind : PermStore → (String × Nat) → Option PermissionPolicy
  | [], _ => none
  | (k, v) :: rest, key => if k = key then some v else storeFind rest key

/-- Models Python `store[key] = policy` on the dict. -/
def storeInsert : PermStore → (String × Nat) → PermissionPolicy → PermStore
  | [], k, v => [(k, v)]
  | (k', v') :: rest, k, v =>
    if k' = k then (k, v) :: rest else (k', v') :: storeInsert rest k v

/-- The outcome of one `_handle_feature_permission_request` call. -/
structure HandlerResult where
  store : PermStore
  policy : PermissionPolicy
  promptCount : Nat
  blockedInsecure : Bool
deriving DecidableEq

/-- Models `BrowserWindow._handle_feature_permission_request`:
non-geolocation features are denied at once; insecure origins are denied
with a status message; a stored decision is replayed; otherwise the user
is prompted and the decision is stored when `remember` is set. -/
def handleFeaturePermissionRequest (store : PermStore) (origin : QUrlM)
    (feature : Feature) (prompt : PromptInput) : HandlerResult :=
  if feature ≠ Feature.Geolocation then
    ⟨store, PermissionPolicy.PermissionDeniedByUser, 0, false⟩
  else if ¬ browser_is_secure_geolocation_origin origin = true then
    ⟨store, PermissionPolicy.PermissionDeniedByUser, 0, true⟩
  else
    let key := (urlToString origin, featureToInt feature)
    match storeFind store key with
    | some p => ⟨store, p, 0, false⟩
    | none =>
      let ar := promptGeolocationPermission prompt
      let policy := if ar.1 = true then PermissionPolicy.PermissionGrantedByUser
        else PermissionPolicy.PermissionDeniedByUser
      ⟨if ar.2 = true then storeInsert store key policy else store, policy, 1, false⟩

/-- The decision stores reachable from the initial empty store by any
sequence of permission requests. -/
inductive ReachableStore : PermStore → Prop where
  | init : ReachableStore []
  | step (s : PermStore) (origin : QUrlM) (feature : Feature) (prompt : PromptInput) :
      ReachableStore s →
      ReachableStore (handleFeaturePermissionRequest s origin feature prompt).store

lemma mem_storeInsert {s : PermStore} {k : String × Nat} {v : PermissionPolicy}
    {e : (String × Nat) × PermissionPolicy} (h : e ∈ storeInsert s k v) :
    e = (k, v) ∨ e ∈ s := by
  induction s with
  | nil => simpa [storeInsert] using h
  | cons hd tl ih =>
    obtain ⟨k', v'⟩ := hd
    rw [storeInsert] at h
    split_ifs at h with hk
    · rcases List.mem_cons.mp h with h | h
      · exact Or.inl h
      · exact Or.inr (List.mem_cons_of_mem _ h)
    · rcases List.mem_cons.mp h with h | h
      · exact Or.inr (h ▸ List.mem_cons_self _ _)
      · rcases ih h with h | h
        · exact Or.inl h
        · exact Or.inr (List.mem_cons_of_mem _ h)

lemma storeFind_insert_self (s : PermStore) (k : String × Nat)
    (v : PermissionPolicy) : storeFind (storeInsert s k v) k = some v := by
  induction s with
  | nil => simp [storeInsert, storeFind]
  | cons hd tl ih =>
    obtain ⟨k', v'⟩ := hd
    rw [storeInsert]
    split_ifs with hk
    · simp [storeFind]
    · rw [storeFind, if_neg hk, ih]

/-- The inline check of the orchestrator is stricter than the standalone
classifier: everything it accepts, the Origin Security Classifier accepts. -/
lemma browser_secure_imp_classifier {u : QUrlM}
    (h : browser_is_secure_geolocation_origin u = true) :
    is_secure_geolocation_origin u = true := by
  rw [browser_is_secure_geolocation_origin] at h
  split_ifs at h with h1 h2
  · rcases h1 with h1 | h1 | h1
    · exact isSecure_first_branch (Or.inr (Or.inl (by rw [h1]; rfl)))
    · exact isSecure_first_branch (Or.inr (Or.inr (by rw [h1]; rfl)))
    · exact isSecure_first_branch (Or.inl (by simp [urlIsLocalFile, h1]))
  · obtain ⟨hs, hh⟩ := h2
    have hlow : strLower u.scheme = "http" := by rw [hs]; rfl
    rw [isSecure_http hlow]
    rcases hh with hh | hh | hh <;> rw [hh] <;> decide

/-! ## Claims -/

/-- C1: the screening check of the orchestrator
(`BrowserWindow._is_secure_geolocation_origin`) does NOT agree with the
standalone Origin Security Classifier
(`geolocation.is_secure_geolocation_origin`): at `http://subdomain.localhost`
(an origin the tests of the repository require the classifier to accept)
the inline check of the orchestrator says insecure while the classifier says
secure.  The claim that the two verdicts coincide for every URL is
therefore false of the code. -/
theorem orchestrator_diverges_from_classifier :
    browser_is_secure_geolocation_origin (parseUrl "http://subdomain.localhost") = false ∧
    is_secure_geolocation_origin (parseUrl "http://subdomain.localhost") = true := by
  constructor <;> decide

/-- C9: every URL denoting a local file, and every URL whose scheme is
`https` or `wss` (case-insensitively), is classified secure regardless of
host and path. -/
theorem secure_schemes_spec :
    ∀ u : QUrlM,
      urlIsLocalFile u = true ∨ strLower u.scheme = "https" ∨ strLower u.scheme = "wss" →
      is_secure_geolocation_origin u = true :=
  fun _ h => isSecure_first_branch h

/-- C9 witness: instantiated at the local file URL from the repo test
suite. -/
theorem secure_schemes_spec_witness :
    urlIsLocalFile (parseUrl "file:///home/user/index.html") = true ∧
    is_secure_geolocation_origin (parseUrl "file:///home/user/index.html") = true :=
  ⟨by decide, secure_schemes_spec _ (Or.inl (by decide))⟩

/-- C2: for `http` URLs (scheme compared case-insensitively) the verdict
is secure exactly when the host is non-empty and is `localhost`
(case-insensitively), ends in `.localhost`, or parses as a loopback IP
literal; together with the concrete examples named by the claim. -/
theorem classifier_http_spec :
    (∀ u : QUrlM, strLower u.scheme = "http" →
      (is_secure_geolocation_origin u = true ↔
        (strLower u.host ≠ "" ∧
          (strLower u.host = "localhost" ∨
            strEndsWith (strLower u.host) ".localhost" = true ∨
            (∃ ip, pyIpAddress (strLower u.host) = some ip ∧ ipIsLoopback ip = true))))) ∧
    is_secure_geolocation_origin (parseUrl "http://localhost") = true ∧
    is_secure_geolocation_origin (parseUrl "http://anything.localhost") = true ∧
    is_secure_geolocation_origin (parseUrl "http://127.0.0.1") = true ∧
    is_secure_geolocation_origin (parseUrl "http://[::1]") = true ∧
    is_secure_geolocation_origin (parseUrl "http://[::ffff:127.0.0.1]") = true ∧
    is_secure_geolocation_origin (parseUrl "http://") = false ∧
    is_secure_geolocation_origin (parseUrl "http://example.com") = false ∧
    is_secure_geolocation_origin (parseUrl "http://192.168.1.10") = false := by
  refine ⟨?_, by decide, by decide, by decide, by decide, by decide, by decide,
    by decide, by decide⟩
  intro u h
  rw [isSecure_http h]
  by_cases h0 : strLower u.host = ""
  · simp [h0]
  · rw [if_neg h0]
    by_cases h1 : strLower u.host = "localhost" ∨
        strEndsWith (strLower u.host) ".localhost" = true
    · rw [if_pos h1]
      constructor
      · intro _
        refine ⟨h0, ?_⟩
        rcases h1 with h1 | h1
        · exact Or.inl h1
        · exact Or.inr (Or.inl h1)
      · intro _; rfl
    · rw [if_neg h1]
      rw [not_or] at h1
      cases hip : pyIpAddress (strLower u.host) with
      | some ip =>
        constructor
        · intro hl
          exact ⟨h0, Or.inr (Or.inr ⟨ip, rfl, hl⟩)⟩
        · rintro ⟨-, hl | hl | ⟨ip', hip', hl'⟩⟩
          · exact absurd hl h1.1
          · exact absurd hl h1.2
          · rw [Option.some_inj] at hip'
            rw [hip']
            exact hl'
      | none =>
        constructor
        · intro hfalse; exact absurd hfalse (by simp)
        · rintro ⟨-, hl | hl | ⟨ip', hip', -⟩⟩
          · exact absurd hl h1.1
          · exact absurd hl h1.2
          · exact absurd hip' (by simp)

/-- C2 witness: the characterisation instantiated at `http://localhost`. -/
theorem classifier_http_spec_witness :
    strLower (parseUrl "http://localhost").scheme = "http" ∧
    (is_secure_geolocation_origin (parseUrl "http://localhost") = true ↔
      (strLower (parseUrl "http://localhost").host ≠ "" ∧
        (strLower (parseUrl "http://localhost").host = "localhost" ∨
          strEndsWith (strLower (parseUrl "http://localhost").host) ".localhost" = true ∨
          (∃ ip, pyIpAddress (strLower (parseUrl "http://localhost").host) = some ip ∧
            ipIsLoopback ip = true)))) :=
  ⟨by decide, classifier_http_spec.1 _ (by decide)⟩

/-- C4: for `blob`/`filesystem` URLs the verdict is the recursive
classification of the URL parsed from the path when that inner URL is valid
and distinct from the outer one, and insecure otherwise; with the concrete examples of
the claim. -/
theorem classifier_nested_scheme_spec :
    (∀ u : QUrlM,
      strLower u.scheme = "blob" ∨ strLower u.scheme = "filesystem" →
      is_secure_geolocation_origin u =
        if (parseUrl u.path).valid = true ∧ parseUrl u.path ≠ u then
          is_secure_geolocation_origin (parseUrl u.path)
        else false) ∧
    is_secure_geolocation_origin (parseUrl "blob:https://example.com/id") = true ∧
    is_secure_geolocation_origin (parseUrl "blob:http://example.com/id") = false :=
  ⟨fun u h => isSecure_nested u h, by decide, by decide⟩

/-- C4 witness: the nested-scheme rule instantiated at
`blob:https://example.com/id`. -/
theorem classifier_nested_scheme_spec_witness :
    (strLower (parseUrl "blob:https://example.com/id").scheme = "blob" ∨
      strLower (parseUrl "blob:https://example.com/id").scheme = "filesystem") ∧
    is_secure_geolocation_origin (parseUrl "blob:https://example.com/id") =
      (if (parseUrl (parseUrl "blob:https://example.com/id").path).valid = true ∧
          parseUrl (parseUrl "blob:https://example.com/id").path ≠
            parseUrl "blob:https://example.com/id" then
        is_secure_geolocation_origin (parseUrl (parseUrl "blob:https://example.com/id").path)
      else false) :=
  ⟨Or.inl (by decide), classifier_nested_scheme_spec.1 _ (Or.inl (by decide))⟩

/-- C5: the classifier terminates on every input: a recursion budget of
`path.length + 1` computes the final verdict (the nested-scheme recursion
strictly shrinks its argument), and when the cycle guard of the code fails —
the inner URL is invalid or identical to the outer one — the verdict is
insecure rather than a diverging recursion. -/
theorem classifier_terminates :
    (∀ (n : Nat) (u : QUrlM), u.path.length < n →
      isSecureFuel n u = is_secure_geolocation_origin u) ∧
    (∀ u : QUrlM,
      strLower u.scheme = "blob" ∨ strLower u.scheme = "filesystem" →
      ¬((parseUrl u.path).valid = true ∧ parseUrl u.path ≠ u) →
      is_secure_geolocation_origin u = false) :=
  ⟨isSecureFuel_stable,
   fun u h hg => by rw [isSecure_nested u h, if_neg hg]⟩

/-- C5 witness: a doubly nested blob URL is classified with a large budget
exactly as with the canonical one, and a blob URL whose inner parse fails
the guard is insecure. -/
theorem classifier_terminates_witness :
    ((parseUrl "blob:blob:x").path.length < 100 ∧
      isSecureFuel 100 (parseUrl "blob:blob:x") =
        is_secure_geolocation_origin (parseUrl "blob:blob:x")) ∧
    is_secure_geolocation_origin (parseUrl "blob:") = false :=
  ⟨⟨by decide, classifier_terminates.1 100 _ (by decide)⟩,
   classifier_terminates.2 _ (Or.inl (by decide)) (by decide)⟩

/-- C6: the classifier is a total function (the embedding returns a `Bool`
for every input), and an `http` URL whose host is neither a localhost name
nor accepted by the IP-literal parser (`pyIpAddress` returns `none`,
modelling the `ValueError` caught by the code) yields the fail-closed
insecure verdict. -/
theorem classifier_fails_closed :
    (∀ u : QUrlM, strLower u.scheme = "http" →
      strLower u.host ≠ "" →
      strLower u.host ≠ "localhost" →
      strEndsWith (strLower u.host) ".localhost" = false →
      pyIpAddress (strLower u.host) = none →
      is_secure_geolocation_origin u = false) ∧
    pyIpAddress "999.0.0.1" = none ∧
    is_secure_geolocation_origin (parseUrl "http://999.0.0.1") = false := by
  refine ⟨?_, by decide, by decide⟩
  intro u h h0 hloc hend hip
  rw [isSecure_http h, if_neg h0, if_neg ?_, hip]
  rintro (hl | he)
  · exact hloc hl
  · rw [hend] at he
    exact absurd he (by decide)

/-- C6 witness: the fail-closed rule instantiated at `http://999.0.0.1`,
whose host is not a valid IP literal. -/
theorem classifier_fails_closed_witness :
    pyIpAddress (strLower (parseUrl "http://999.0.0.1").host) = none ∧
    is_secure_geolocation_origin (parseUrl "http://999.0.0.1") = false :=
  ⟨by decide,
   classifier_fails_closed.1 _ (by decide) (by decide) (by decide) (by decide) (by decide)⟩

/-! ## Orchestrator claims -/

lemma handler_prompt_case {s : PermStore} {origin : QUrlM} {p : PromptInput}
    (hsec : browser_is_secure_geolocation_origin origin = true)
    (hfind : storeFind s (urlToString origin, featureToInt Feature.Geolocation) = none) :
    handleFeaturePermissionRequest s origin Feature.Geolocation p =
      ⟨if (promptGeolocationPermission p).2 = true then
          storeInsert s (urlToString origin, featureToInt Feature.Geolocation)
            (if (promptGeolocationPermission p).1 = true then
              PermissionPolicy.PermissionGrantedByUser
             else PermissionPolicy.PermissionDeniedByUser)
        else s,
       if (promptGeolocationPermission p).1 = true then
         PermissionPolicy.PermissionGrantedByUser
       else PermissionPolicy.PermissionDeniedByUser,
       1, false⟩ := by
  rw [handleFeaturePermissionRequest, if_neg (by simp), if_neg (not_not.mpr hsec)]
  dsimp only
  rw [hfind]

lemma handler_found_case {s : PermStore} {origin : QUrlM} {pol : PermissionPolicy}
    {p : PromptInput}
    (hsec : browser_is_secure_geolocation_origin origin = true)
    (hfind : storeFind s (urlToString origin, featureToInt Feature.Geolocation) = some pol) :
    handleFeaturePermissionRequest s origin Feature.Geolocation p = ⟨s, pol, 0, false⟩ := by
  rw [handleFeaturePermissionRequest, if_neg (by simp), if_neg (not_not.mpr hsec)]
  dsimp only
  rw [hfind]

lemma handler_store_cases (s : PermStore) (origin : QUrlM) (feature : Feature)
    (prompt : PromptInput) :
    (handleFeaturePermissionRequest s origin feature prompt).store = s ∨
    (browser_is_secure_geolocation_origin origin = true ∧
      (handleFeaturePermissionRequest s origin feature prompt).store =
        storeInsert s (urlToString origin, featureToInt feature)
          (handleFeaturePermissionRequest s origin feature prompt).policy) := by
  by_cases h1 : feature ≠ Feature.Geolocation
  · rw [handleFeaturePermissionRequest, if_pos h1]
    exact Or.inl rfl
  · by_cases h2 : browser_is_secure_geolocation_origin origin = true
    · rw [handleFeaturePermissionRequest, if_neg h1, if_neg (not_not.mpr h2)]
      dsimp only
      rcases hf : storeFind s (urlToString origin, featureToInt feature) with _ | pol
      · dsimp only
        by_cases hrem : (promptGeolocationPermission prompt).2 = true
        · exact Or.inr ⟨h2, by rw [if_pos hrem]⟩
        · exact Or.inl (by rw [if_neg hrem])
      · exact Or.inl rfl
    · rw [handleFeaturePermissionRequest, if_neg h1, if_pos h2]
      exact Or.inl rfl

/-- C7: a request for any capability other than geolocation is denied
immediately: the store is returned untouched (the early return never
reaches the store lookup) and the prompt collaborator never runs. -/
theorem non_geolocation_denied_immediately :
    ∀ (s : PermStore) (origin : QUrlM) (feature : Feature) (p : PromptInput),
      feature ≠ Feature.Geolocation →
      handleFeaturePermissionRequest s origin feature p =
        ⟨s, PermissionPolicy.PermissionDeniedByUser, 0, false⟩ := by
  intro s origin feature p h
  rw [handleFeaturePermissionRequest, if_pos h]

/-- C7 witness: a notifications request from a secure origin is denied
without a prompt and without touching the store. -/
theorem non_geolocation_denied_immediately_witness :
    Feature.Notifications ≠ Feature.Geolocation ∧
    handleFeaturePermissionRequest [] (parseUrl "https://example.com")
        Feature.Notifications ⟨PromptClick.clickedAllow, true⟩ =
      ⟨[], PermissionPolicy.PermissionDeniedByUser, 0, false⟩ :=
  ⟨by decide, non_geolocation_denied_immediately _ _ _ _ (by decide)⟩

/-- C3: in every reachable decision store, each entry is keyed by the
string of an origin the Origin Security Classifier deems secure: writes
happen only after the security screening, and the inline
screening is stricter than the classifier. -/
theorem store_only_secure_origins :
    ∀ s : PermStore, ReachableStore s →
      ∀ e ∈ s, ∃ u : QUrlM,
        e.1.1 = urlToString u ∧ is_secure_geolocation_origin u = true := by
  intro s hs
  induction hs with
  | init => intro e he; exact absurd he (List.not_mem_nil e)
  | step s origin feature prompt hr ih =>
    rcases handler_store_cases s origin feature prompt with heq | ⟨hsec, heq⟩
    · rw [heq]; exact ih
    · rw [heq]
      intro e he
      rcases mem_storeInsert he with rfl | he2
      · exact ⟨origin, rfl, browser_secure_imp_classifier hsec⟩
      · exact ih e he2

/-- C3 witness: the invariant applied to the store reached by one granted,
remembered geolocation request from `https://example.com`, at its single
entry. -/
theorem store_only_secure_origins_witness :
    ∃ u : QUrlM,
      (("https://example.com", 1),
        PermissionPolicy.PermissionGrantedByUser).1.1 = urlToString u ∧
      is_secure_geolocation_origin u = true :=
  store_only_secure_origins _
    (ReachableStore.step [] (parseUrl "https://example.com") Feature.Geolocation
      ⟨PromptClick.clickedAllow, true⟩ ReachableStore.init)
    (("https://example.com", 1), PermissionPolicy.PermissionGrantedByUser) (by decide)

/-- C8: on a secure origin with no stored decision the prompt collaborator
runs exactly once and the decision is stored exactly when `remember` is
set, whatever the decision was; consequently a granted, remembered
decision is replayed without prompting, and a denied, unremembered
decision leads to a fresh prompt on the next identical request. -/
theorem secure_prompt_remember_spec :
    ∀ (s : PermStore) (origin : QUrlM) (p p2 : PromptInput),
      browser_is_secure_geolocation_origin origin = true →
      storeFind s (urlToString origin, featureToInt Feature.Geolocation) = none →
      ((handleFeaturePermissionRequest s origin Feature.Geolocation p).promptCount = 1 ∧
       (p.rememberChecked = true →
         (handleFeaturePermissionRequest s origin Feature.Geolocation p).store =
           storeInsert s (urlToString origin, featureToInt Feature.Geolocation)
             (handleFeaturePermissionRequest s origin Feature.Geolocation p).policy) ∧
       (p.rememberChecked = false →
         (handleFeaturePermissionRequest s origin Feature.Geolocation p).store = s)) ∧
      ((handleFeaturePermissionRequest s origin Feature.Geolocation
          ⟨PromptClick.clickedAllow, true⟩).policy =
        PermissionPolicy.PermissionGrantedByUser ∧
       handleFeaturePermissionRequest
         (handleFeaturePermissionRequest s origin Feature.Geolocation
           ⟨PromptClick.clickedAllow, true⟩).store origin Feature.Geolocation p2 =
         ⟨(handleFeaturePermissionRequest s origin Feature.Geolocation
             ⟨PromptClick.clickedAllow, true⟩).store,
          PermissionPolicy.PermissionGrantedByUser, 0, false⟩) ∧
      ((handleFeaturePermissionRequest s origin Feature.Geolocation
          ⟨PromptClick.clickedDeny, false⟩).policy =
        PermissionPolicy.PermissionDeniedByUser ∧
       (handleFeaturePermissionRequest s origin Feature.Geolocation
          ⟨PromptClick.clickedDeny, false⟩).store = s ∧
       (handleFeaturePermissionRequest
          (handleFeaturePermissionRequest s origin Feature.Geolocation
            ⟨PromptClick.clickedDeny, false⟩).store origin Feature.Geolocation
          p2).promptCount = 1) := by
  intro s origin p p2 hsec hfind
  have hmain := handler_prompt_case (p := p) hsec hfind
  have hallow := handler_prompt_case (p := ⟨PromptClick.clickedAllow, true⟩) hsec hfind
  have hdeny := handler_prompt_case (p := ⟨PromptClick.clickedDeny, false⟩) hsec hfind
  refine ⟨⟨?_, ?_, ?_⟩, ⟨?_, ?_⟩, ?_, ?_, ?_⟩
  · rw [hmain]
  · intro hr
    rw [hmain]
    dsimp only
    rw [if_pos (show (promptGeolocationPermission p).2 = true from hr)]
  · intro hr
    rw [hmain]
    dsimp only
    rw [if_neg (show ¬(promptGeolocationPermission p).2 = true from by
      rw [show (promptGeolocationPermission p).2 = p.rememberChecked from rfl, hr]
      decide)]
  · rw [hallow]
    exact (by decide :
      (if (promptGeolocationPermission ⟨PromptClick.clickedAllow, true⟩).1 = true then
        PermissionPolicy.PermissionGrantedByUser
      else PermissionPolicy.PermissionDeniedByUser) =
        PermissionPolicy.PermissionGrantedByUser)
  · rw [hallow]
    dsimp only
    rw [if_pos (show (promptGeolocationPermission
      ⟨PromptClick.clickedAllow, true⟩).2 = true from rfl)]
    have hpol : (if (promptGeolocationPermission
        ⟨PromptClick.clickedAllow, true⟩).1 = true then
          PermissionPolicy.PermissionGrantedByUser
        else PermissionPolicy.PermissionDeniedByUser) =
        PermissionPolicy.PermissionGrantedByUser := by decide
    rw [hpol]
    exact handler_found_case hsec (storeFind_insert_self s _ _)
  · rw [hdeny]
    exact (by decide :
      (if (promptGeolocationPermission ⟨PromptClick.clickedDeny, false⟩).1 = true then
        PermissionPolicy.PermissionGrantedByUser
      else PermissionPolicy.PermissionDeniedByUser) =
        PermissionPolicy.PermissionDeniedByUser)
  · rw [hdeny]
    dsimp only
    rw [if_neg (show ¬(promptGeolocationPermission
      ⟨PromptClick.clickedDeny, false⟩).2 = true from by decide)]
  · rw [hdeny]
    dsimp only
    rw [if_neg (show ¬(promptGeolocationPermission
      ⟨PromptClick.clickedDeny, false⟩).2 = true from by decide)]
    rw [handler_prompt_case (p := p2) hsec hfind]

/-- C8 witness: starting from the empty store with origin
`https://example.com`: one prompt runs, and after a granted remembered
decision the second identical request is granted without prompting. -/
theorem secure_prompt_remember_spec_witness :
    (handleFeaturePermissionRequest [] (parseUrl "https://example.com")
        Feature.Geolocation ⟨PromptClick.clickedAllow, true⟩).promptCount = 1 ∧
    handleFeaturePermissionRequest
        (handleFeaturePermissionRequest [] (parseUrl "https://example.com")
          Feature.Geolocation ⟨PromptClick.clickedAllow, true⟩).store
        (parseUrl "https://example.com") Feature.Geolocation
        ⟨PromptClick.clickedDeny, false⟩ =
      ⟨(handleFeaturePermissionRequest [] (parseUrl "https://example.com")
          Feature.Geolocation ⟨PromptClick.clickedAllow, true⟩).store,
       PermissionPolicy.PermissionGrantedByUser, 0, false⟩ :=
  ⟨(secure_prompt_remember_spec [] (parseUrl "https://example.com")
      ⟨PromptClick.clickedAllow, true⟩ ⟨PromptClick.clickedDeny, false⟩
      (by decide) rfl).1.1,
   (secure_prompt_remember_spec [] (parseUrl "https://example.com")
      ⟨PromptClick.clickedAllow, true⟩ ⟨PromptClick.clickedDeny, false⟩
      (by decide) rfl).2.1.2⟩

/-- C10: a prompt dismissed without clicking Allow or Deny resolves to a
denial, and when the remember checkbox was checked at dismissal that
denial is written to the store, so every subsequent identical request is
denied without prompting. -/
theorem dismissed_prompt_denies_and_remembers :
    ∀ (s : PermStore) (origin : QUrlM) (p2 : PromptInput),
      browser_is_secure_geolocation_origin origin = true →
      storeFind s (urlToString origin, featureToInt Feature.Geolocation) = none →
      (handleFeaturePermissionRequest s origin Feature.Geolocation
          ⟨PromptClick.dismissed, true⟩).policy =
        PermissionPolicy.PermissionDeniedByUser ∧
      (handleFeaturePermissionRequest s origin Feature.Geolocation
          ⟨PromptClick.dismissed, true⟩).store =
        storeInsert s (urlToString origin, featureToInt Feature.Geolocation)
          PermissionPolicy.PermissionDeniedByUser ∧
      handleFeaturePermissionRequest
          (handleFeaturePermissionRequest s origin Feature.Geolocation
            ⟨PromptClick.dismissed, true⟩).store origin Feature.Geolocation p2 =
        ⟨(handleFeaturePermissionRequest s origin Feature.Geolocation
            ⟨PromptClick.dismissed, true⟩).store,
         PermissionPolicy.PermissionDeniedByUser, 0, false⟩ := by
  intro s origin p2 hsec hfind
  have hdis := handler_prompt_case (p := ⟨PromptClick.dismissed, true⟩) hsec hfind
  have hpol : (if (promptGeolocationPermission
      ⟨PromptClick.dismissed, true⟩).1 = true then
        PermissionPolicy.PermissionGrantedByUser
      else PermissionPolicy.PermissionDeniedByUser) =
      PermissionPolicy.PermissionDeniedByUser := by decide
  refine ⟨?_, ?_, ?_⟩
  · rw [hdis]
    dsimp only
    rw [hpol]
  · rw [hdis]
    dsimp only
    rw [if_pos (show (promptGeolocationPermission
      ⟨PromptClick.dismissed, true⟩).2 = true from rfl), hpol]
  · rw [hdis]
    dsimp only
    rw [if_pos (show (promptGeolocationPermission
      ⟨PromptClick.dismissed, true⟩).2 = true from rfl), hpol]
    exact handler_found_case hsec (storeFind_insert_self s _ _)

/-- C10 witness: dismissal with the checkbox checked, starting from the
empty store at `https://example.com`: the denial is remembered and the
second request is denied without prompting. -/
theorem dismissed_prompt_denies_and_remembers_witness :
    (handleFeaturePermissionRequest [] (parseUrl "https://example.com")
        Feature.Geolocation ⟨PromptClick.dismissed, true⟩).store =
      storeInsert [] (urlToString (parseUrl "https://example.com"),
        featureToInt Feature.Geolocation) PermissionPolicy.PermissionDeniedByUser ∧
    handleFeaturePermissionRequest
        (handleFeaturePermissionRequest [] (parseUrl "https://example.com")
          Feature.Geolocation ⟨PromptClick.dismissed, true⟩).store
        (parseUrl "https://example.com") Feature.Geolocation
        ⟨PromptClick.clickedAllow, false⟩ =
      ⟨(handleFeaturePermissionRequest [] (parseUrl "https://example.com")
          Feature.Geolocation ⟨PromptClick.dismissed, true⟩).store,
       PermissionPolicy.PermissionDeniedByUser, 0, false⟩ :=
  ⟨(dismissed_prompt_denies_and_remembers [] (parseUrl "https://example.com")
      ⟨PromptClick.clickedAllow, false⟩ (by decide) rfl).2.1,
   (dismissed_prompt_denies_and_remembers [] (parseUrl "https://example.com")
      ⟨PromptClick.clickedAllow, false⟩ (by decide) rfl).2.2⟩
